import Mathlib

/-!
Verification of the dependency-conflict core of `depend-health`
(`src/dep_manager/resolver.py` and `src/dep_manager/health.py`).

The resolver manipulates versions and specifier sets through the standard
`packaging` library.  Following the spec's data model (§3, §4.1), a version
is an epoch, a list of release segments, optional pre/post/dev segments and
an optional local version label; a specifier is an operator paired with a
version, and a constraint set is a collection of specifiers.  Membership and
ordering below mirror the standard public-version-numbering scheme (PEP 440)
that `packaging` implements, including the trailing-zero-insensitive
comparison key, the pre-release gate of set membership, the special cases of
the `<` and `>` operators, and the local-label handling of `==`, `<=` and
`>=` (a candidate's local label is discarded when the specifier's version
carries none).
-/

/-- One segment of a local version label: numeric segments compare by value
and sort above alphanumeric segments, which compare lexicographically. -/
inductive LocalPart where
  | num (n : Nat)
  | str (s : String)
deriving DecidableEq, Repr

/-- Phase of a pre-release segment: `a` < `b` < `rc`, encoded as 0 < 1 < 2,
paired with the pre-release number. -/
abbrev PreSeg := Nat × Nat

/-- A version: epoch, release segments, optional pre-release, post-release
and dev-release segments, and an optional local version label
(`localSeg` models the library's `local` attribute; that word is a keyword
here), per the standard version scheme. -/
structure Version where
  epoch : Nat
  release : List Nat
  pre : Option PreSeg
  post : Option Nat
  dev : Option Nat
  localSeg : Option (List LocalPart)
deriving DecidableEq, Repr

/-- The public part of a version: the local label discarded. -/
def stripLocal (v : Version) : Version :=
  ⟨v.epoch, v.release, v.pre, v.post, v.dev, none⟩

/-- A version is a pre-release when it has a pre segment or a dev segment. -/
def Version.is_prerelease (v : Version) : Bool :=
  v.pre.isSome || v.dev.isSome

/-- A version is a post-release when it has a post segment. -/
def Version.is_postrelease (v : Version) : Bool :=
  v.post.isSome

/-- Drop trailing zeros of the release segment list (the comparison key of a
release ignores trailing zeros: `1.2.3.0` compares equal to `1.2.3`). -/
def releaseKey (r : List Nat) : List Nat :=
  (r.reverse.dropWhile (· == 0)).reverse

/-- Lexicographic comparison of release-segment lists (a proper prefix sorts
first). -/
def cmpSegs : List Nat → List Nat → Ordering
  | [], [] => .eq
  | [], _ :: _ => .lt
  | _ :: _, [] => .gt
  | a :: as, b :: bs =>
    match compare a b with
    | .eq => cmpSegs as bs
    | o => o

/-- Comparison key for the pre-release position: dev-only releases sort below
everything (`negInf`), plain releases sort above all pre-releases (`inf`). -/
inductive PreKey where
  | negInf
  | val (phase : Nat) (n : Nat)
  | inf
deriving DecidableEq, Repr

/-- The pre-release key of a version: a pre segment gives its own value; with
no pre segment, a version that has a dev segment but no post segment keys to
`negInf`, anything else to `inf`. -/
def preKey (v : Version) : PreKey :=
  match v.pre with
  | some (ph, n) => .val ph n
  | none =>
    match v.post, v.dev with
    | none, some _ => .negInf
    | _, _ => .inf

/-- Order on pre-release keys. -/
def cmpPre : PreKey → PreKey → Ordering
  | .negInf, .negInf => .eq
  | .negInf, _ => .lt
  | _, .negInf => .gt
  | .val p1 n1, .val p2 n2 => (compare p1 p2).then (compare n1 n2)
  | .val _ _, .inf => .lt
  | .inf, .val _ _ => .gt
  | .inf, .inf => .eq

/-- Order on the post-release position: no post segment sorts first. -/
def cmpPost : Option Nat → Option Nat → Ordering
  | none, none => .eq
  | none, some _ => .lt
  | some _, none => .gt
  | some a, some b => compare a b

/-- Order on the dev-release position: no dev segment sorts last. -/
def cmpDev : Option Nat → Option Nat → Ordering
  | none, none => .eq
  | none, some _ => .gt
  | some _, none => .lt
  | some a, some b => compare a b

/-- Order on one local segment: alphanumeric sorts below numeric; within a
kind, value order. -/
def cmpLocalPart : LocalPart → LocalPart → Ordering
  | .str a, .str b => compare a b
  | .str _, .num _ => .lt
  | .num _, .str _ => .gt
  | .num a, .num b => compare a b

/-- Lexicographic order on local segment lists (a proper prefix sorts
first). -/
def cmpLocalParts : List LocalPart → List LocalPart → Ordering
  | [], [] => .eq
  | [], _ :: _ => .lt
  | _ :: _, [] => .gt
  | a :: as, b :: bs =>
    match cmpLocalPart a b with
    | .eq => cmpLocalParts as bs
    | o => o

/-- Order on the local-label position: no label sorts first. -/
def cmpLocal : Option (List LocalPart) → Option (List LocalPart) → Ordering
  | none, none => .eq
  | none, some _ => .lt
  | some _, none => .gt
  | some a, some b => cmpLocalParts a b

/-- Total comparison of versions by the standard key:
(epoch, trailing-zero-stripped release, pre key, post key, dev key,
local key). -/
def versionCompare (a b : Version) : Ordering :=
  (compare a.epoch b.epoch).then
    ((cmpSegs (releaseKey a.release) (releaseKey b.release)).then
      ((cmpPre (preKey a) (preKey b)).then
        ((cmpPost a.post b.post).then
          ((cmpDev a.dev b.dev).then (cmpLocal a.localSeg b.localSeg)))))

/-- Version equality (equality of comparison keys; e.g. `1.2.3.0` equals
`1.2.3`). -/
def versionEquals (a b : Version) : Bool :=
  versionCompare a b == .eq

/-- Strict version order. -/
def versionLt (a b : Version) : Bool :=
  versionCompare a b == .lt

/-- Non-strict version order. -/
def versionLe (a b : Version) : Bool :=
  !(versionCompare a b == .gt)

/-- Equality of base versions (epoch and release only, trailing zeros
stripped), used by the exclusive-ordering special cases. -/
def baseEquals (a b : Version) : Bool :=
  a.epoch == b.epoch && releaseKey a.release == releaseKey b.release

/-- The specifier operators of the spec's data model:
`==, !=, <, <=, >, >=, ~=`. -/
inductive Op where
  | eq
  | ne
  | lt
  | le
  | gt
  | ge
  | compatible
deriving DecidableEq, Repr

/-- One version specifier: an operator paired with a version value. -/
structure Specifier where
  op : Op
  version : Version
deriving DecidableEq, Repr

/-- Pad a release-segment list with zero segments up to length `k`. -/
def padSegs (r : List Nat) (k : Nat) : List Nat :=
  r ++ List.replicate (k - r.length) 0

/-- Operator semantics, `specApply op v w` meaning "`v` satisfies `op w`":
  * `== w` compares by version equality, discarding the candidate's local
    label when `w` carries none (so `1.2.3+abc` satisfies `==1.2.3`); `!= w`
    is its negation;
  * `<= w` / `>= w` order the candidate's public part against `w`;
  * `< w` compares full versions and additionally rejects pre-releases of
    `w`'s base version when `w` itself is not a pre-release;
  * `> w` compares full versions and additionally rejects post-releases of
    `w`'s base version when `w` itself is not a post-release, and any
    locally-labelled version of `w`'s base version;
  * `~= w` requires `>= w` together with a prefix match against `w`'s release
    with its last segment dropped (same epoch, equal leading release segments
    after zero-padding; a version whose pre segment glues onto a compared
    release segment cannot match). -/
def specApply (op : Op) (v w : Version) : Bool :=
  match op with
  | .eq =>
    if w.localSeg.isSome then versionEquals v w
    else versionEquals (stripLocal v) w
  | .ne =>
    !(if w.localSeg.isSome then versionEquals v w
      else versionEquals (stripLocal v) w)
  | .le => versionLe (stripLocal v) w
  | .ge => versionLe w (stripLocal v)
  | .lt =>
    versionLt v w &&
      !(!w.is_prerelease && v.is_prerelease && baseEquals v w)
  | .gt =>
    versionLt w v &&
      !(!w.is_postrelease && v.is_postrelease && baseEquals v w) &&
      !(v.localSeg.isSome && baseEquals v w)
  | .compatible =>
    let p := w.release.dropLast
    versionLe w (stripLocal v) && v.epoch == w.epoch &&
      !(v.pre.isSome && v.release.length ≤ p.length) &&
      (padSegs v.release p.length).take p.length == p

/-- Whether a single specifier admits pre-releases by default: only the
`==, >=, <=, ~=` operators do, and only when their version value is itself a
pre-release. -/
def Specifier.prereleasesDefault (s : Specifier) : Bool :=
  match s.op with
  | .eq | .ge | .le | .compatible => s.version.is_prerelease
  | _ => false

/-- Membership of a version in one specifier under a given pre-release
policy: pre-release versions are rejected unless admitted, otherwise the
operator decides. -/
def Specifier.containsWith (s : Specifier) (pre : Bool) (v : Version) : Bool :=
  if v.is_prerelease && !pre then false
  else specApply s.op v s.version

/-- A constraint set: an (order-irrelevant) collection of specifiers for one
dependency name; empty means unconstrained. -/
abbrev SpecifierSet := List Specifier

/-- Membership of a version in a specifier set (the `in` test): the set
admits pre-releases when any member specifier does; a pre-release version not
so admitted is rejected outright; otherwise every member specifier must be
satisfied (empty set: every non-pre-release version is a member). -/
def specSetContains (ss : SpecifierSet) (v : Version) : Bool :=
  let pre := ss.any Specifier.prereleasesDefault
  if v.is_prerelease && !pre then false
  else ss.all (fun s => s.containsWith pre v)

/-- Convenience constructor for a plain three-segment release version. -/
def relV (a b c : Nat) : Version :=
  ⟨0, [a, b, c], none, none, none, none⟩

/-!
### The resolver (`src/dep_manager/resolver.py`)

Dependency strings, requirement lines and version strings reach the resolver
already parsed by the standard library; that parse boundary is modelled by
`Option`: an invalid version string is `none : Option Version`, an invalid
dependency string is `none : Option Requirement`, and an invalid manifest
line is the `invalid` constructor of `ManifestLine`.
-/

/-- A parsed requirement: a dependency name, its specifier set and the
rendered environment-marker string, when one is present. -/
structure Requirement where
  name : String
  specifier : SpecifierSet
  marker : Option String
deriving DecidableEq, Repr

/-- Substring test on rendered marker strings (Python's `in` on `str`). -/
def strMentions (pat s : String) : Bool :=
  decide (List.IsInfix pat.data s.data)

/-- `parse_dependency`: the parse result of a dependency string is dropped
when it is invalid, when its marker string mentions `extra`, or when its
marker string mentions `platform_system` or `sys_platform`; otherwise the
requirement is kept. -/
def parse_dependency (parsed : Option Requirement) : Option Requirement :=
  match parsed with
  | none => none
  | some req =>
    match req.marker with
    | some m =>
      if strMentions "extra" m then none
      else if strMentions "platform_system" m || strMentions "sys_platform" m then none
      else some req
    | none => some req

/-- Insert a version into a list sorted by `versionLe`. -/
def insertByLe (v : Version) : List Version → List Version
  | [] => [v]
  | w :: ws => if versionLe v w then v :: w :: ws else w :: insertByLe v ws

/-- Sort a list of versions by the version order. -/
def sortVersions (l : List Version) : List Version :=
  l.foldr insertByLe []

/-- The fixed list of common round-number probe versions. -/
def common_versions : List Version :=
  [relV 0 1 0, relV 0 5 0, relV 1 0 0, relV 1 5 0, relV 2 0 0, relV 2 5 0,
   relV 3 0 0, relV 4 0 0, relV 5 0 0, relV 10 0 0, relV 20 0 0,
   relV 50 0 0, relV 100 0 0]

/-- `_generate_test_versions`: the deduplicated union of the version literals
mentioned by either specifier set and the common round-number versions,
sorted by the version order. -/
def generate_test_versions (spec1 spec2 : SpecifierSet) : List Version :=
  sortVersions (((spec1 ++ spec2).map Specifier.version ++ common_versions).dedup)

/-- The payload of the conflict string
`"{package_name}: requires {spec1} vs {spec2}"`. -/
structure SpecConflict where
  packageName : String
  spec1 : SpecifierSet
  spec2 : SpecifierSet
deriving DecidableEq, Repr

/-- `check_specifier_conflict`: no conflict when either specifier set is
empty; otherwise probe the generated test versions and report no conflict as
soon as one probe is a member of both sets, a conflict when no probe is. -/
def check_specifier_conflict (spec1 spec2 : SpecifierSet) (package_name : String) :
    Option SpecConflict :=
  if spec1.isEmpty || spec2.isEmpty then none
  else if (generate_test_versions spec1 spec2).any
      (fun v => specSetContains spec1 v && specSetContains spec2 v) then none
  else some ⟨package_name, spec1, spec2⟩

/-- Name normalisation: lowercase, `-` replaced by `_`.  Written as one
character-wise pass (lowercasing a character and then folding `-` to `_`),
which is the same function as lowercasing the string and then replacing every
`-` by `_`. -/
def normalizeName (s : String) : String :=
  String.mk (s.data.map (fun c =>
    let c2 := c.toLower
    if c2 = '-' then '_' else c2))

/-- The local-requirement map keyed by normalised name, built by insertion in
list order (last write wins), queried at a normalised name. -/
def lookupLocal (reqs : List Requirement) (n : String) : Option Requirement :=
  reqs.foldl (fun acc r => if normalizeName r.name == n then some r else acc) none

/-- The two shapes of conflict message `find_conflicts` emits: the
self-conflict string
`"... Package {name} version {v} conflicts with existing requirement: {req}"`
and the dependency-conflict string
`"... {name} requires {dep} but you have {local} installed"`. -/
inductive ConflictMsg where
  | selfConflict (packageName : String) (version : Version) (existing : Requirement)
  | depConflict (packageName : String) (dep : Requirement) (localReq : Requirement)
deriving DecidableEq, Repr

/-- `find_conflicts`: build the local map, emit a self-conflict message when
the new package's own (valid) version fails a non-empty existing constraint
for its own normalised name, then fold over the parsed applicable
dependencies, appending a dependency-conflict message for each one whose
specifier set conflicts with the local requirement of the same normalised
name.  An unparsable new-package version (`none`) skips the self check. -/
def find_conflicts (new_package_name : String) (new_package_version : Option Version)
    (new_dependencies : List (Option Requirement))
    (local_requirements : List Requirement) : List ConflictMsg :=
  let conflicts0 : List ConflictMsg :=
    match lookupLocal local_requirements (normalizeName new_package_name) with
    | some existing_req =>
      if existing_req.specifier.isEmpty then []
      else
        match new_package_version with
        | some ver =>
          if specSetContains existing_req.specifier ver then []
          else [ConflictMsg.selfConflict new_package_name ver existing_req]
        | none => []
    | none => []
  let new_deps_parsed := new_dependencies.filterMap parse_dependency
  new_deps_parsed.foldl (fun acc new_dep =>
    match lookupLocal local_requirements (normalizeName new_dep.name) with
    | some local_req =>
      match check_specifier_conflict new_dep.specifier local_req.specifier new_dep.name with
      | some _ => acc ++ [ConflictMsg.depConflict new_package_name new_dep local_req]
      | none => acc
    | none => acc) conflicts0

/-- The self-conflict part of `find_conflicts` in isolation. -/
def selfConflictMsgs (new_package_name : String) (new_package_version : Option Version)
    (local_requirements : List Requirement) : List ConflictMsg :=
  match lookupLocal local_requirements (normalizeName new_package_name) with
  | some existing_req =>
    if existing_req.specifier.isEmpty then []
    else
      match new_package_version with
      | some ver =>
        if specSetContains existing_req.specifier ver then []
        else [ConflictMsg.selfConflict new_package_name ver existing_req]
      | none => []
  | none => []

/-- The message one parsed applicable dependency contributes, when it
conflicts with a local requirement of the same normalised name. -/
def conflictMsgFor (new_package_name : String) (new_dep : Requirement)
    (local_requirements : List Requirement) : Option ConflictMsg :=
  match lookupLocal local_requirements (normalizeName new_dep.name) with
  | some local_req =>
    match check_specifier_conflict new_dep.specifier local_req.specifier new_dep.name with
    | some _ => some (ConflictMsg.depConflict new_package_name new_dep local_req)
    | none => none
  | none => none

/-- The dependency-conflict part of `find_conflicts` in isolation: the
applicable parsed dependencies, in input order, each mapped to its message
when it conflicts. -/
def depConflictMsgs (new_package_name : String)
    (new_dependencies : List (Option Requirement))
    (local_requirements : List Requirement) : List ConflictMsg :=
  (new_dependencies.filterMap parse_dependency).filterMap
    (fun d => conflictMsgFor new_package_name d local_requirements)

/-!
### The manifest file (`get_local_requirements`, `append_to_requirements`)

A manifest is modelled as its list of lines, each line pre-classified at the
parse boundary: blank after stripping, a `#` comment, an invalid requirement
line, or a parsed requirement.  A missing file is the empty list.
-/

/-- One line of a requirements manifest. -/
inductive ManifestLine where
  | blank
  | comment (text : String)
  | invalid (text : String)
  | req (r : Requirement)
deriving DecidableEq, Repr

/-- `get_local_requirements`: the parsed requirements of the manifest, in
order; blank, comment and invalid lines contribute nothing. -/
def get_local_requirements (file : List ManifestLine) : List Requirement :=
  file.filterMap (fun l => match l with | .req r => some r | _ => none)

/-- The requirement the appended line parses to: `name==version` when a
version is given, the bare name (unconstrained) otherwise. -/
def renderedReq (package_name : String) (version : Option Version) : Requirement :=
  match version with
  | some v => ⟨package_name, [⟨Op.eq, v⟩], none⟩
  | none => ⟨package_name, [], none⟩

/-- `append_to_requirements`: when a parsed requirement of the manifest
already has the same normalised name, return `false` and leave the file
unchanged; otherwise write `"\n{name}=={version}\n"` (or `"\n{name}\n"`),
which appends a blank line followed by the new requirement line, and return
`true`. -/
def append_to_requirements (file : List ManifestLine) (package_name : String)
    (version : Option Version) : Bool × List ManifestLine :=
  let existing_reqs := get_local_requirements file
  let normalized_name := normalizeName package_name
  if existing_reqs.any (fun r => normalizeName r.name == normalized_name) then
    (false, file)
  else
    (true, file ++ [ManifestLine.blank, ManifestLine.req (renderedReq package_name version)])

/-!
### The health classifier (`src/dep_manager/health.py`)
-/

/-- `calculate_health_status`: status and recommendation from days since last
commit (when known) or else days since last release. -/
def calculate_health_status (days_since_commit : Option Int)
    (days_since_release : Int) : String × String :=
  match days_since_commit with
  | some d =>
    if d < 90 then ("Active", "Active & Healthy")
    else if d < 180 then ("Slow", "Moderately Active")
    else ("Zombie", "Low Activity - Consider Alternatives")
  | none =>
    if days_since_release < 180 then ("Active", "Active & Healthy")
    else if days_since_release < 365 then ("Slow", "Moderately Active")
    else ("Zombie", "Low Activity - Consider Alternatives")

/-!
### Helper lemmas
-/

/-- Membership is preserved by sorted insertion. -/
theorem mem_insertByLe (x v : Version) :
    ∀ l : List Version, v ∈ insertByLe x l ↔ v = x ∨ v ∈ l := by
  intro l
  induction l with
  | nil => simp [insertByLe]
  | cons w ws ih =>
    simp only [insertByLe]
    split
    · simp
    · simp only [List.mem_cons, ih]
      tauto

/-- Membership is preserved by `sortVersions`. -/
theorem mem_sortVersions (v : Version) :
    ∀ l : List Version, v ∈ sortVersions l ↔ v ∈ l := by
  intro l
  induction l with
  | nil => simp [sortVersions]
  | cons w ws ih =>
    simp only [sortVersions, List.foldr_cons] at *
    rw [mem_insertByLe]
    simp [ih]

/-- A chained comparison is `eq` exactly when both links are. -/
theorem then_eq_eq (a b : Ordering) : a.then b = .eq ↔ a = .eq ∧ b = .eq := by
  cases a <;> simp [Ordering.then]

/-- A pre-release version is never version-equal to a version that has no
pre, post or dev segment. -/
theorem versionEquals_plain_of_prerelease (v w : Version)
    (hwpre : w.pre = none) (hwpost : w.post = none) (hwdev : w.dev = none)
    (hv : v.is_prerelease = true) : versionEquals v w = false := by
  have hkw : preKey w = .inf := by
    simp [preKey, hwpre, hwpost, hwdev]
  have key : versionCompare v w ≠ .eq := by
    intro h
    rw [versionCompare, then_eq_eq, then_eq_eq, then_eq_eq, then_eq_eq,
      then_eq_eq] at h
    obtain ⟨-, -, hpre, hpost, hdev, -⟩ := h
    rw [hkw] at hpre
    cases hp : v.pre with
    | some s =>
      rw [preKey, hp] at hpre
      simp [cmpPre] at hpre
    | none =>
      have hd : v.dev.isSome := by
        simp only [Version.is_prerelease, hp, Option.isSome_none, Bool.false_or] at hv
        exact hv
      cases hdv : v.dev with
      | none => rw [hdv] at hd; simp at hd
      | some d =>
        rw [hdv, hwdev] at hdev
        simp [cmpDev] at hdev
  cases hc : versionCompare v w with
  | lt => simp only [versionEquals, hc]; rfl
  | gt => simp only [versionEquals, hc]; rfl
  | eq => exact absurd hc key

/-- Folding the dependency loop of `find_conflicts` appends, in input order,
exactly the messages `conflictMsgFor` produces. -/
theorem foldl_depConflicts (new_package_name : String)
    (local_requirements : List Requirement) :
    ∀ (l : List Requirement) (acc : List ConflictMsg),
      l.foldl (fun acc new_dep =>
        match lookupLocal local_requirements (normalizeName new_dep.name) with
        | some local_req =>
          match check_specifier_conflict new_dep.specifier local_req.specifier
              new_dep.name with
          | some _ =>
            acc ++ [ConflictMsg.depConflict new_package_name new_dep local_req]
          | none => acc
        | none => acc) acc
      = acc ++ l.filterMap
          (fun d => conflictMsgFor new_package_name d local_requirements) := by
  intro l
  induction l with
  | nil => intro acc; simp
  | cons d l ih =>
    intro acc
    rw [List.foldl_cons, List.filterMap_cons]
    cases hl : lookupLocal local_requirements (normalizeName d.name) with
    | none => simp [conflictMsgFor, hl, ih]
    | some lr =>
      cases hc : check_specifier_conflict d.specifier lr.specifier d.name with
      | none => simp [conflictMsgFor, hl, hc, ih]
      | some c => simp [conflictMsgFor, hl, hc, ih]

/-- `find_conflicts` is the self-conflict part followed by the
dependency-conflict part. -/
theorem find_conflicts_parts (new_package_name : String)
    (new_package_version : Option Version)
    (new_dependencies : List (Option Requirement))
    (local_requirements : List Requirement) :
    find_conflicts new_package_name new_package_version new_dependencies
        local_requirements
      = selfConflictMsgs new_package_name new_package_version local_requirements
        ++ depConflictMsgs new_package_name new_dependencies local_requirements := by
  have h0 : find_conflicts new_package_name new_package_version new_dependencies
        local_requirements
      = (new_dependencies.filterMap parse_dependency).foldl
          (fun acc new_dep =>
            match lookupLocal local_requirements (normalizeName new_dep.name) with
            | some local_req =>
              match check_specifier_conflict new_dep.specifier local_req.specifier
                  new_dep.name with
              | some _ =>
                acc ++ [ConflictMsg.depConflict new_package_name new_dep local_req]
              | none => acc
            | none => acc)
          (selfConflictMsgs new_package_name new_package_version
            local_requirements) := rfl
  rw [h0, foldl_depConflicts]
  rfl

/-!
### Claim theorems
-/

/-- C1: if either constraint set is empty, `check_specifier_conflict` returns
no conflict (`none`); `compatible(A, ∅)` and `compatible(∅, A)` hold for
every constraint set `A`. -/
theorem check_specifier_conflict_empty_compatible (A : SpecifierSet) (n : String) :
    check_specifier_conflict A [] n = none ∧ check_specifier_conflict [] A n = none := by
  constructor <;> simp [check_specifier_conflict]

/-- C2: the compatibility verdict of `check_specifier_conflict` is symmetric
in its two constraint sets for any package name, and the probe set generated
from `(A, B)` has the same members as the one generated from `(B, A)`. -/
theorem check_specifier_conflict_symmetric (A B : SpecifierSet) (n : String) :
    (check_specifier_conflict A B n).isSome = (check_specifier_conflict B A n).isSome
    ∧ ∀ v, v ∈ generate_test_versions A B ↔ v ∈ generate_test_versions B A := by
  have hmem : ∀ v, v ∈ generate_test_versions A B ↔ v ∈ generate_test_versions B A := by
    intro v
    rw [generate_test_versions, generate_test_versions, mem_sortVersions,
      mem_sortVersions, List.mem_dedup, List.mem_dedup]
    simp only [List.mem_append, List.mem_map]
    constructor
    · rintro (⟨s, hs, h⟩ | hc)
      · exact Or.inl ⟨s, hs.symm, h⟩
      · exact Or.inr hc
    · rintro (⟨s, hs, h⟩ | hc)
      · exact Or.inl ⟨s, hs.symm, h⟩
      · exact Or.inr hc
  refine ⟨?_, hmem⟩
  unfold check_specifier_conflict
  cases hA : A.isEmpty <;> cases hB : B.isEmpty
  · have hany : ((generate_test_versions A B).any
          fun v => specSetContains A v && specSetContains B v)
        = ((generate_test_versions B A).any
          fun v => specSetContains B v && specSetContains A v) := by
      rw [Bool.eq_iff_iff]
      simp only [List.any_eq_true]
      constructor
      · rintro ⟨v, hv, hsat⟩
        refine ⟨v, (hmem v).mp hv, ?_⟩
        rw [Bool.and_comm] at hsat
        exact hsat
      · rintro ⟨v, hv, hsat⟩
        refine ⟨v, (hmem v).mpr hv, ?_⟩
        rw [Bool.and_comm] at hsat
        exact hsat
    simp only [hA, hB, Bool.or_self]
    rw [hany]
    cases h : (generate_test_versions B A).any
        fun v => specSetContains B v && specSetContains A v <;> simp
  · simp [hA, hB]
  · simp [hA, hB]
  · simp [hA, hB]

/-- C3: `find_conflicts` returns the self-conflict message (at most one)
first, then one message per conflicting parsed dependency in input order,
and returns the empty list exactly when no conflict is detected. -/
theorem find_conflicts_output_order (n : String) (v : Option Version)
    (deps : List (Option Requirement)) (locals : List Requirement) :
    find_conflicts n v deps locals
      = selfConflictMsgs n v locals ++ depConflictMsgs n deps locals
    ∧ (selfConflictMsgs n v locals).length ≤ 1
    ∧ (find_conflicts n v deps locals = [] ↔
        selfConflictMsgs n v locals = []
        ∧ ∀ d ∈ deps.filterMap parse_dependency, conflictMsgFor n d locals = none) := by
  refine ⟨find_conflicts_parts n v deps locals, ?_, ?_⟩
  · unfold selfConflictMsgs
    split
    · split
      · simp
      · split
        · split <;> simp
        · simp
    · simp
  · rw [find_conflicts_parts, List.append_eq_nil]
    unfold depConflictMsgs
    rw [List.filterMap_eq_nil_iff]

/-- C4: the health status is `Active`/`Slow`/`Zombie` by the fixed 90/180
thresholds on days since last commit when that signal is present, and by the
180/365 thresholds on days since last release otherwise. -/
theorem calculate_health_status_thresholds (d r : Int) :
    ((d < 90 → (calculate_health_status (some d) r).1 = "Active")
      ∧ (90 ≤ d → d < 180 → (calculate_health_status (some d) r).1 = "Slow")
      ∧ (180 ≤ d → (calculate_health_status (some d) r).1 = "Zombie"))
    ∧ ((r < 180 → (calculate_health_status none r).1 = "Active")
      ∧ (180 ≤ r → r < 365 → (calculate_health_status none r).1 = "Slow")
      ∧ (365 ≤ r → (calculate_health_status none r).1 = "Zombie")) := by
  refine ⟨⟨?_, ?_, ?_⟩, ?_, ?_, ?_⟩
  · intro h
    simp only [calculate_health_status]
    rw [if_pos h]
  · intro h1 h2
    simp only [calculate_health_status]
    rw [if_neg (by omega), if_pos h2]
  · intro h
    simp only [calculate_health_status]
    rw [if_neg (by omega), if_neg (by omega)]
  · intro h
    simp only [calculate_health_status]
    rw [if_pos h]
  · intro h1 h2
    simp only [calculate_health_status]
    rw [if_neg (by omega), if_pos h2]
  · intro h
    simp only [calculate_health_status]
    rw [if_neg (by omega), if_neg (by omega)]

/-- Witness for C4 at concrete inputs. -/
theorem calculate_health_status_thresholds_witness :
    (calculate_health_status (some 10) 400).1 = "Active"
    ∧ (calculate_health_status none 400).1 = "Zombie" :=
  ⟨(calculate_health_status_thresholds 10 400).1.1 (by decide),
   (calculate_health_status_thresholds 10 400).2.2.2 (by decide)⟩

/-- The two-sided bound pair of Scenario 6: `>1.0.0, <1.0.1`. -/
def specA : SpecifierSet := [⟨Op.gt, relV 1 0 0⟩, ⟨Op.lt, relV 1 0 1⟩]

/-- C5: for `A = B = {>1.0.0, <1.0.1}` the true intersection is non-empty
(`1.0.0.1` satisfies both sets) yet `check_specifier_conflict` reports a
conflict: the documented false-conflict behaviour of the probe heuristic. -/
theorem check_specifier_conflict_probe_false_conflict :
    specSetContains specA ⟨0, [1, 0, 0, 1], none, none, none, none⟩ = true
    ∧ check_specifier_conflict specA specA "pkgA" = some ⟨"pkgA", specA, specA⟩ := by
  constructor
  · decide
  · decide

/-- C9: `find_conflicts` is deterministic — two invocations on identical
inputs yield identical output lists (the embedding is a pure function of its
four inputs, as the source only reads them). -/
theorem find_conflicts_idempotent (n : String) (v : Option Version)
    (deps : List (Option Requirement)) (locals : List Requirement) :
    find_conflicts n v deps locals = find_conflicts n v deps locals := rfl

/-- C6: a dependency whose rendered marker string mentions `extra`,
`platform_system` or `sys_platform` is discarded by `parse_dependency`
(returned as `none`, exactly like a parse failure is), so `find_conflicts`
on a package whose only declared dependency it is produces zero
dependency-conflict messages, whatever the local requirements are. -/
theorem parse_dependency_discards_marked (req : Requirement) (m : String)
    (hm : req.marker = some m)
    (h : strMentions "extra" m = true ∨ strMentions "platform_system" m = true
      ∨ strMentions "sys_platform" m = true) :
    parse_dependency (some req) = none
    ∧ ∀ (n : String) (v : Option Version) (locals : List Requirement),
        find_conflicts n v [some req] locals = selfConflictMsgs n v locals
        ∧ depConflictMsgs n [some req] locals = [] := by
  have hp : parse_dependency (some req) = none := by
    simp only [parse_dependency, hm]
    rcases h with h1 | h2 | h3
    · simp [h1]
    · by_cases he : strMentions "extra" m = true
      · simp [he]
      · simp [he, h2]
    · by_cases he : strMentions "extra" m = true
      · simp [he]
      · simp [he, h3]
  refine ⟨hp, ?_⟩
  intro n v locals
  have hd : depConflictMsgs n [some req] locals = [] := by
    unfold depConflictMsgs
    simp [List.filterMap_cons, hp]
  exact ⟨by rw [find_conflicts_parts, hd, List.append_nil], hd⟩

/-- The parse result of `pytest>=6.0; extra == "test"`. -/
def pytestReq : Requirement :=
  ⟨"pytest", [⟨Op.ge, ⟨0, [6, 0], none, none, none, none⟩⟩], some "extra == \"test\""⟩

/-- A local pin `pytest==6.1.0`. -/
def pytestPin : Requirement := ⟨"pytest", [⟨Op.eq, relV 6 1 0⟩], none⟩

/-- Witness for C6 on the Scenario 4 inputs. -/
theorem parse_dependency_discards_marked_witness :
    parse_dependency (some pytestReq) = none
    ∧ find_conflicts "toolkit" none [some pytestReq] [pytestPin]
        = selfConflictMsgs "toolkit" none [pytestPin]
    ∧ depConflictMsgs "toolkit" [some pytestReq] [pytestPin] = [] := by
  have h := parse_dependency_discards_marked pytestReq "extra == \"test\"" rfl
    (Or.inl (by decide))
  exact ⟨h.1, h.2 "toolkit" none [pytestPin]⟩

/-- C7: when the new package's version string is invalid (`none` at the parse
boundary) and its name matches a local requirement with a non-empty
constraint set, `find_conflicts` emits no self-conflict message and still
processes the declared dependencies normally (and, being a total function,
raises nothing). -/
theorem find_conflicts_invalid_version_skips_self (n : String)
    (deps : List (Option Requirement)) (locals : List Requirement)
    (r : Requirement) (hl : lookupLocal locals (normalizeName n) = some r)
    (_hs : r.specifier ≠ []) :
    find_conflicts n none deps locals = depConflictMsgs n deps locals
    ∧ selfConflictMsgs n none locals = [] := by
  have hself : selfConflictMsgs n none locals = [] := by
    simp only [selfConflictMsgs, hl]
    split <;> rfl
  exact ⟨by rw [find_conflicts_parts, hself, List.nil_append], hself⟩

/-- A local pin `foo==2.0.0`. -/
def fooPin : Requirement := ⟨"foo", [⟨Op.eq, relV 2 0 0⟩], none⟩

/-- Witness for C7 on a concrete pinned package. -/
theorem find_conflicts_invalid_version_skips_self_witness :
    find_conflicts "foo" none [] [fooPin] = depConflictMsgs "foo" [] [fooPin]
    ∧ selfConflictMsgs "foo" none [fooPin] = [] :=
  find_conflicts_invalid_version_skips_self "foo" [] [fooPin] fooPin
    (by decide) (by decide)

/-- The version `1.2.3`. -/
def v123 : Version := ⟨0, [1, 2, 3], none, none, none, none⟩

/-- The constraint set `{==1.2.3}`. -/
def spec123 : SpecifierSet := [⟨Op.eq, v123⟩]

/-- The local-label variant `1.2.3+abc`. -/
def v123abc : Version :=
  ⟨0, [1, 2, 3], none, none, none, some [LocalPart.str "abc"]⟩

/-- Counterexample for C8 as stated: `1.2.3+abc` satisfies `{==1.2.3}` — the
`==` match against a spec version without a local label discards the
candidate's local label — yet it is a different version value from `1.2.3`,
both structurally and under version equality. -/
theorem eq_specifier_admits_local_variant :
    specSetContains spec123 v123abc = true
    ∧ versionEquals v123abc v123 = false
    ∧ v123abc ≠ v123 := by
  refine ⟨?_, ?_, ?_⟩ <;> decide

/-- C8 (amended): membership in `{==1.2.3}` holds exactly for the versions
whose public part (local label discarded) equals the version `1.2.3` — that
is, `1.2.3` and its local variants `1.2.3+l`; in particular, among versions
without a local label, only the version `1.2.3` itself satisfies the set. -/
theorem eq_specifier_exact_public (v : Version) :
    (specSetContains spec123 v = true
      ↔ versionEquals (stripLocal v) v123 = true)
    ∧ (v.localSeg = none →
        (specSetContains spec123 v = true ↔ versionEquals v v123 = true)) := by
  have hpre : spec123.any Specifier.prereleasesDefault = false := by decide
  have hmain : specSetContains spec123 v = true
      ↔ versionEquals (stripLocal v) v123 = true := by
    show (if v.is_prerelease && !(spec123.any Specifier.prereleasesDefault)
        then false
        else spec123.all fun s =>
          s.containsWith (spec123.any Specifier.prereleasesDefault) v)
        = true ↔ versionEquals (stripLocal v) v123 = true
    rw [hpre]
    cases hv : v.is_prerelease
    · simp [hv, spec123, Specifier.containsWith, specApply, v123]
    · have hsv : (stripLocal v).is_prerelease = true := hv
      have hne :=
        versionEquals_plain_of_prerelease (stripLocal v) v123 rfl rfl rfl hsv
      simp [hv, hne]
  refine ⟨hmain, fun h => ?_⟩
  have hstrip : stripLocal v = v := by
    unfold stripLocal
    rw [← h]
  rw [hstrip] at hmain
  exact hmain

/-- Witness for C8 (amended) at the version `1.2.3` itself. -/
theorem eq_specifier_exact_public_witness :
    specSetContains spec123 v123 = true ∧ versionEquals v123 v123 = true := by
  constructor
  · exact ((eq_specifier_exact_public v123).2 rfl).mpr (by decide)
  · decide

/-- Counterexample for C10 as stated: appending `requests==2.0.0` to the
empty manifest writes `"\nrequests==2.0.0\n"`, so the file gains a blank
separator line as well — the appended suffix is not exactly the one
requirement line. -/
theorem append_to_requirements_not_single_line :
    (append_to_requirements [] "requests" (some (relV 2 0 0))).2
      ≠ [ManifestLine.req (renderedReq "requests" (some (relV 2 0 0)))] := by
  decide

/-- C10 (amended): when a parsed requirement of the manifest already has the
package's normalised name, `append_to_requirements` returns `false` and
leaves the file unchanged; otherwise it returns `true` and appends a blank
separator line followed by exactly one requirement line — `name==version`
when a version is given, the bare name otherwise. -/
theorem append_to_requirements_characterization (file : List ManifestLine)
    (package_name : String) (version : Option Version) :
    ((∃ r ∈ get_local_requirements file,
        normalizeName r.name = normalizeName package_name) →
      append_to_requirements file package_name version = (false, file))
    ∧ ((∀ r ∈ get_local_requirements file,
        normalizeName r.name ≠ normalizeName package_name) →
      append_to_requirements file package_name version
        = (true, file ++ [ManifestLine.blank,
            ManifestLine.req (renderedReq package_name version)])) := by
  constructor
  · rintro ⟨r, hr, hname⟩
    have hany : (get_local_requirements file).any
        (fun q => normalizeName q.name == normalizeName package_name) = true :=
      List.any_eq_true.mpr ⟨r, hr, by simp [hname]⟩
    simp [append_to_requirements, hany]
  · intro h
    have hany : (get_local_requirements file).any
        (fun q => normalizeName q.name == normalizeName package_name) = false := by
      rw [List.any_eq_false]
      intro q hq
      simp [h q hq]
    simp [append_to_requirements, hany]

/-- An unconstrained local pin `bar`. -/
def barPin : Requirement := ⟨"bar", [], none⟩

/-- Witness for C10 (amended) on a duplicate and on a fresh package. -/
theorem append_to_requirements_characterization_witness :
    append_to_requirements [ManifestLine.req barPin] "bar" none
      = (false, [ManifestLine.req barPin])
    ∧ append_to_requirements [] "baz" (some (relV 1 0 0))
      = (true, [ManifestLine.blank,
          ManifestLine.req (renderedReq "baz" (some (relV 1 0 0)))]) := by
  constructor
  · exact (append_to_requirements_characterization [ManifestLine.req barPin]
      "bar" none).1 ⟨barPin, by decide, by decide⟩
  · exact (append_to_requirements_characterization [] "baz"
      (some (relV 1 0 0))).2 (by intro q hq; simp [get_local_requirements] at hq)
